import Mathlib

/-!
Verification of `benchmark_db.py`: a deterministic dataset generator
(`get_dataset`) and a benchmark harness (`Benchmark.measure` plus four
backend run functions `run_mysql`, `run_sqlite`, `run_mongodb`,
`run_tinydb`, driven by the `__main__` block).

The Python `random` module, the four database client libraries and the
wall clock are external to the repository; they are modelled abstractly:
the random module as a deterministic state machine satisfying its
documented range guarantees, the clock as an explicitly threaded
monotone value, and the drivers by the effects the source relies on
(in particular, pymongo `insert_one` assigning `_id` into the document
object it is handed).
-/

namespace BenchmarkDb

/-- A user record, as built by the user loop of `get_dataset` (a Python
dict with four keys). -/
structure User where
  user_id : Nat
  name : String
  email : String
  created_at : String
deriving DecidableEq, Repr

/-- An order record, as built by the order loop of `get_dataset`. Python
float arithmetic is modelled over the rationals, so `amount` is a
rational and `round(x, 2)` is exact rounding to a multiple of 1/100. -/
structure Order where
  order_id : Nat
  user_id : Nat
  amount : ℚ
  status : String
  created_at : String
deriving DecidableEq, Repr

/-- Interface to the parts of the Python `random` module that
`get_dataset` uses. The module keeps a hidden global generator state;
the embedding threads an explicit state of type `S`. `choiceIdx n`
models the index that `random.choice` picks from a list of length `n`.
The module is an external library, so it is kept abstract: any
deterministic implementation. -/
structure RandomAPI (S : Type) where
  seed : Int → S
  randint : Nat → Nat → S → Nat × S
  uniform : Nat → Nat → S → ℚ × S
  choiceIdx : Nat → S → Nat × S

/-- Documented range guarantees of the `random` module: `randint lo hi`
returns an integer in the closed interval `[lo, hi]`, `uniform lo hi`
returns a value in `[lo, hi]`, and `choice` picks a valid index. -/
structure RandomAPI.Lawful {S : Type} (api : RandomAPI S) : Prop where
  randint_lo : ∀ (lo hi : Nat) (s : S), lo ≤ hi → lo ≤ (api.randint lo hi s).1
  randint_hi : ∀ (lo hi : Nat) (s : S), lo ≤ hi → (api.randint lo hi s).1 ≤ hi
  uniform_lo : ∀ (lo hi : Nat) (s : S), lo ≤ hi → (lo : ℚ) ≤ (api.uniform lo hi s).1
  uniform_hi : ∀ (lo hi : Nat) (s : S), lo ≤ hi → (api.uniform lo hi s).1 ≤ (hi : ℚ)
  choice_lt : ∀ (n : Nat) (s : S), 0 < n → (api.choiceIdx n s).1 < n

theorem getD_mem_of_lt {α : Type} (l : List α) (i : Nat) (d : α)
    (h : i < l.length) : l.getD i d ∈ l := by
  rw [List.getD_eq_getElem?_getD, List.getElem?_eq_getElem h]
  exact List.getElem_mem h

/-- Rounding to the nearest integer with ties going to the even
integer, which is how Python `round` behaves on exact halves. -/
def roundHalfEven (q : ℚ) : ℤ :=
  if q - ⌊q⌋ < 1/2 then ⌊q⌋
  else if 1/2 < q - ⌊q⌋ then ⌊q⌋ + 1
  else if Even ⌊q⌋ then ⌊q⌋ else ⌊q⌋ + 1

/-- Python `round(x, 2)`: rounding to two fractional digits. -/
def round2 (q : ℚ) : ℚ := (roundHalfEven (q * 100) : ℚ) / 100

/-- The list `statuses` of `get_dataset`. -/
def statuses : List String := ["PENDING", "PAID", "CANCELLED"]

/-- Number of users `get_dataset` generates. -/
def userCount : Nat := 5000

/-- Number of orders `get_dataset` generates. -/
def orderCount : Nat := 20000

/-- The user record appended at loop index `i` of `get_dataset`: name
and email are derived from `i` by string formatting and the timestamp
is a string literal of the source. -/
def mkUser (i : Nat) : User :=
  { user_id := i
    name := "User " ++ toString i
    email := "user" ++ toString i ++ "@example.com"
    created_at := "2023-01-01 10:00:00" }

/-- The order record appended at loop index `i` of `get_dataset`,
drawing `user_id`, then `amount`, then `status` from the random stream
in the order in which the dict display of the source evaluates. -/
def genOrder {S : Type} (api : RandomAPI S) (i : Nat) (s : S) : Order × S :=
  let p1 := api.randint 1 5000 s
  let p2 := api.uniform 1 500 p1.2
  let p3 := api.choiceIdx statuses.length p2.2
  ({ order_id := i
     user_id := p1.1
     amount := round2 p2.1
     status := statuses.getD p3.1 ""
     created_at := "2023-01-02 11:00:00" }, p3.2)

/-- The order loop of `get_dataset`: appends the orders for loop
indices `i, i + 1, …` for `n` iterations, threading the random state. -/
def genOrdersFrom {S : Type} (api : RandomAPI S) : Nat → Nat → S → List Order × S
  | _, 0, s => ([], s)
  | i, n + 1, s =>
    let p := genOrder api i s
    let r := genOrdersFrom api (i + 1) n p.2
    (p.1 :: r.1, r.2)

/-- Embedding of `get_dataset`. The Python function reads and replaces
the hidden global state of the `random` module; the embedding passes
that state explicitly: `s0` is the global generator state on entry and
the third component of the result is the global state on return. The
first statement `random.seed(42)` replaces the state, ignoring `s0`. -/
def get_dataset {S : Type} (api : RandomAPI S) (_s0 : S) :
    List User × List Order × S :=
  let s := api.seed 42
  let users := (List.range userCount).map (fun k => mkUser (k + 1))
  let p := genOrdersFrom api 1 orderCount s
  (users, p.1, p.2)

theorem genOrdersFrom_length {S : Type} (api : RandomAPI S) :
    ∀ (n i : Nat) (s : S), (genOrdersFrom api i n s).1.length = n := by
  intro n
  induction n with
  | zero => intro i s; rfl
  | succ n ih =>
    intro i s
    simp only [genOrdersFrom, List.length_cons, ih]

theorem genOrdersFrom_map_order_id {S : Type} (api : RandomAPI S) :
    ∀ (n i : Nat) (s : S),
      (genOrdersFrom api i n s).1.map Order.order_id
        = (List.range n).map (fun k => i + k) := by
  intro n
  induction n with
  | zero => intro i s; rfl
  | succ n ih =>
    intro i s
    simp only [genOrdersFrom, List.map_cons, genOrder, List.range_succ_eq_map,
      List.map_map, ih]
    refine congrArg₂ List.cons (by omega) ?_
    refine List.map_congr_left ?_
    intro k _
    simp only [Function.comp]
    omega

theorem genOrdersFrom_mem_user_id {S : Type} (api : RandomAPI S)
    (hl : api.Lawful) :
    ∀ (n i : Nat) (s : S), ∀ o ∈ (genOrdersFrom api i n s).1,
      1 ≤ o.user_id ∧ o.user_id ≤ 5000 := by
  intro n
  induction n with
  | zero => intro i s o ho; simp [genOrdersFrom] at ho
  | succ n ih =>
    intro i s o ho
    simp only [genOrdersFrom, List.mem_cons] at ho
    rcases ho with ho | ho
    · subst ho
      exact ⟨hl.randint_lo 1 5000 s (by norm_num),
        hl.randint_hi 1 5000 s (by norm_num)⟩
    · exact ih (i + 1) _ o ho

theorem genOrdersFrom_mem_created_at {S : Type} (api : RandomAPI S) :
    ∀ (n i : Nat) (s : S), ∀ o ∈ (genOrdersFrom api i n s).1,
      o.created_at = "2023-01-02 11:00:00" := by
  intro n
  induction n with
  | zero => intro i s o ho; simp [genOrdersFrom] at ho
  | succ n ih =>
    intro i s o ho
    simp only [genOrdersFrom, List.mem_cons] at ho
    rcases ho with ho | ho
    · subst ho; rfl
    · exact ih (i + 1) _ o ho

theorem genOrdersFrom_mem_status {S : Type} (api : RandomAPI S)
    (hl : api.Lawful) :
    ∀ (n i : Nat) (s : S), ∀ o ∈ (genOrdersFrom api i n s).1,
      o.status ∈ statuses := by
  intro n
  induction n with
  | zero => intro i s o ho; simp [genOrdersFrom] at ho
  | succ n ih =>
    intro i s o ho
    simp only [genOrdersFrom, List.mem_cons] at ho
    rcases ho with ho | ho
    · subst ho
      have h3 : (api.choiceIdx statuses.length
          (api.uniform 1 500 (api.randint 1 5000 s).2).2).1 < statuses.length :=
        hl.choice_lt statuses.length _ (by norm_num [statuses])
      exact getD_mem_of_lt _ _ _ h3
    · exact ih (i + 1) _ o ho

theorem roundHalfEven_ge (q : ℚ) (n : ℤ) (h : (n : ℚ) ≤ q) :
    n ≤ roundHalfEven q := by
  have hf : n ≤ ⌊q⌋ := Int.le_floor.mpr h
  unfold roundHalfEven
  split_ifs <;> omega

theorem roundHalfEven_le (q : ℚ) (n : ℤ) (h : q ≤ (n : ℚ)) :
    roundHalfEven q ≤ n := by
  have hf : (⌊q⌋ : ℚ) ≤ q := Int.floor_le q
  have hfl : ⌊q⌋ ≤ n := by exact_mod_cast hf.trans h
  unfold roundHalfEven
  split_ifs with h1 h2 h3
  · exact hfl
  · have hlt : (⌊q⌋ : ℚ) < (n : ℚ) := by linarith
    have : ⌊q⌋ < n := by exact_mod_cast hlt
    omega
  · exact hfl
  · have hh : 1/2 ≤ q - ⌊q⌋ := le_of_not_lt h1
    have hlt : (⌊q⌋ : ℚ) < (n : ℚ) := by linarith
    have : ⌊q⌋ < n := by exact_mod_cast hlt
    omega

theorem round2_bounds (q : ℚ) (h1 : 1 ≤ q) (h2 : q ≤ 500) :
    1 ≤ round2 q ∧ round2 q ≤ 500 := by
  have hlo : (100 : ℤ) ≤ roundHalfEven (q * 100) :=
    roundHalfEven_ge _ 100 (by push_cast; linarith)
  have hhi : roundHalfEven (q * 100) ≤ (50000 : ℤ) :=
    roundHalfEven_le _ 50000 (by push_cast; linarith)
  have hloq : (100 : ℚ) ≤ (roundHalfEven (q * 100) : ℚ) := by exact_mod_cast hlo
  have hhiq : ((roundHalfEven (q * 100) : ℤ) : ℚ) ≤ 50000 := by exact_mod_cast hhi
  constructor
  · rw [round2, le_div_iff₀ (by norm_num : (0:ℚ) < 100)]
    linarith
  · rw [round2, div_le_iff₀ (by norm_num : (0:ℚ) < 100)]
    linarith

theorem round2_hundredths (q : ℚ) : ∃ z : ℤ, round2 q = (z : ℚ) / 100 :=
  ⟨roundHalfEven (q * 100), rfl⟩

theorem genOrdersFrom_mem_amount {S : Type} (api : RandomAPI S)
    (hl : api.Lawful) :
    ∀ (n i : Nat) (s : S), ∀ o ∈ (genOrdersFrom api i n s).1,
      1 ≤ o.amount ∧ o.amount ≤ 500 ∧ ∃ z : ℤ, o.amount = (z : ℚ) / 100 := by
  intro n
  induction n with
  | zero => intro i s o ho; simp [genOrdersFrom] at ho
  | succ n ih =>
    intro i s o ho
    simp only [genOrdersFrom, List.mem_cons] at ho
    rcases ho with ho | ho
    · subst ho
      have hu1 : ((1 : Nat) : ℚ) ≤ (api.uniform 1 500 (api.randint 1 5000 s).2).1 :=
        hl.uniform_lo 1 500 _ (by norm_num)
      have hu2 : (api.uniform 1 500 (api.randint 1 5000 s).2).1 ≤ ((500 : Nat) : ℚ) :=
        hl.uniform_hi 1 500 _ (by norm_num)
      push_cast at hu1 hu2
      have hb := round2_bounds _ hu1 hu2
      exact ⟨hb.1, hb.2, round2_hundredths _⟩
    · exact ih (i + 1) _ o ho

/-- A concrete implementation of the random interface (a linear
congruential generator), used to instantiate the abstract theorems at
a computable instance. -/
def lcgNext (s : Nat) : Nat := (s * 1103515245 + 12345) % 2 ^ 31

/-- Instance of the random interface backed by `lcgNext`; its state is
a natural number. -/
def lcgAPI : RandomAPI Nat where
  seed := fun z => z.natAbs % 2 ^ 31
  randint := fun lo hi s => (lo + s % (hi + 1 - lo), lcgNext s)
  uniform := fun lo hi s =>
    ((lo : ℚ) + ((s % ((hi - lo) * 100 + 1) : Nat) : ℚ) / 100, lcgNext s)
  choiceIdx := fun n s => (s % n, lcgNext s)

theorem lcgAPI_lawful : lcgAPI.Lawful := by
  constructor
  · intro lo hi s h
    simp [lcgAPI]
  · intro lo hi s h
    simp only [lcgAPI]
    have hm : s % (hi + 1 - lo) < hi + 1 - lo := Nat.mod_lt _ (by omega)
    omega
  · intro lo hi s h
    simp only [lcgAPI]
    have : (0 : ℚ) ≤ ((s % ((hi - lo) * 100 + 1) : Nat) : ℚ) / 100 := by
      positivity
    linarith
  · intro lo hi s h
    simp only [lcgAPI]
    have hm : s % ((hi - lo) * 100 + 1) < (hi - lo) * 100 + 1 :=
      Nat.mod_lt _ (by omega)
    have ht : ((s % ((hi - lo) * 100 + 1) : Nat) : ℚ) ≤ ((hi - lo : Nat) : ℚ) * 100 := by
      have : (s % ((hi - lo) * 100 + 1) : Nat) ≤ (hi - lo) * 100 := by omega
      exact_mod_cast this
    have hsub : ((hi - lo : Nat) : ℚ) = (hi : ℚ) - (lo : ℚ) := by
      push_cast [h]
      ring
    rw [hsub] at ht
    have : ((s % ((hi - lo) * 100 + 1) : Nat) : ℚ) / 100 ≤ (hi : ℚ) - (lo : ℚ) := by
      rw [div_le_iff₀ (by norm_num : (0:ℚ) < 100)]
      linarith
    linarith
  · intro n s h
    exact Nat.mod_lt _ h

theorem get_dataset_users_eq {S : Type} (api : RandomAPI S) (s0 : S) :
    (get_dataset api s0).1 = (List.range userCount).map (fun k => mkUser (k + 1)) := by
  simp only [get_dataset]

theorem get_dataset_orders_eq {S : Type} (api : RandomAPI S) (s0 : S) :
    (get_dataset api s0).2.1 = (genOrdersFrom api 1 orderCount (api.seed 42)).1 := by
  simp only [get_dataset]

/-- C1: two invocations of `get_dataset` with its fixed seed and counts
(the function hardcodes seed 42 and counts 5000 and 20000), started
from arbitrary global generator states, return identical (users,
orders) pairs: the two lists are equal as lists of records — hence have
the same lengths and agree on every field of every record. -/
theorem get_dataset_deterministic {S : Type} (api : RandomAPI S) (s0 s1 : S) :
    (get_dataset api s0).1 = (get_dataset api s1).1 ∧
    (get_dataset api s0).2.1 = (get_dataset api s1).2.1 ∧
    (get_dataset api s0).1.length = (get_dataset api s1).1.length ∧
    (get_dataset api s0).2.1.length = (get_dataset api s1).2.1.length :=
  ⟨rfl, rfl, rfl, rfl⟩

/-- C2: every generated order has `1 ≤ user_id ≤ 5000`; there are 5000
users and 20000 orders; the user identifiers are exactly `1, …, 5000`
in order and the order identifiers exactly `1, …, 20000` in order
(dense, unique, record `i` holding identifier `i`). -/
theorem get_dataset_identifiers {S : Type} (api : RandomAPI S)
    (hl : api.Lawful) (s0 : S) :
    (∀ o ∈ (get_dataset api s0).2.1, 1 ≤ o.user_id ∧ o.user_id ≤ 5000) ∧
    (get_dataset api s0).1.length = 5000 ∧
    (get_dataset api s0).2.1.length = 20000 ∧
    (get_dataset api s0).1.map User.user_id = (List.range 5000).map (· + 1) ∧
    (get_dataset api s0).2.1.map Order.order_id = (List.range 20000).map (· + 1) := by
  refine ⟨?_, ?_, ?_, ?_, ?_⟩
  · intro o ho
    rw [get_dataset_orders_eq] at ho
    exact genOrdersFrom_mem_user_id api hl orderCount 1 _ o ho
  · rw [get_dataset_users_eq]
    simp [userCount]
  · rw [get_dataset_orders_eq]
    exact genOrdersFrom_length api orderCount 1 _
  · rw [get_dataset_users_eq, List.map_map]
    exact List.map_congr_left (fun k _ => rfl)
  · rw [get_dataset_orders_eq, genOrdersFrom_map_order_id]
    exact List.map_congr_left (fun k _ => by omega)

/-- Witness for C2 at the concrete generator instance and entry state 0. -/
theorem get_dataset_identifiers_witness :
    (∀ o ∈ (get_dataset lcgAPI 0).2.1, 1 ≤ o.user_id ∧ o.user_id ≤ 5000) ∧
    (get_dataset lcgAPI 0).1.length = 5000 ∧
    (get_dataset lcgAPI 0).2.1.length = 20000 ∧
    (get_dataset lcgAPI 0).1.map User.user_id = (List.range 5000).map (· + 1) ∧
    (get_dataset lcgAPI 0).2.1.map Order.order_id = (List.range 20000).map (· + 1) :=
  get_dataset_identifiers lcgAPI lcgAPI_lawful 0

/-- C3: every generated order amount lies in the interval [1.00,
500.00] and is an integer number of hundredths, that is, it has at most
two fractional digits. -/
theorem get_dataset_amounts {S : Type} (api : RandomAPI S)
    (hl : api.Lawful) (s0 : S) :
    ∀ o ∈ (get_dataset api s0).2.1,
      1 ≤ o.amount ∧ o.amount ≤ 500 ∧ ∃ z : ℤ, o.amount = (z : ℚ) / 100 := by
  intro o ho
  rw [get_dataset_orders_eq] at ho
  exact genOrdersFrom_mem_amount api hl orderCount 1 _ o ho

/-- Witness for C3 at the concrete generator instance and entry state 0. -/
theorem get_dataset_amounts_witness :
    (get_dataset lcgAPI 0).2.1.length = 20000 ∧
    ∀ o ∈ (get_dataset lcgAPI 0).2.1,
      1 ≤ o.amount ∧ o.amount ≤ 500 ∧ ∃ z : ℤ, o.amount = (z : ℚ) / 100 :=
  ⟨by rw [get_dataset_orders_eq]; exact genOrdersFrom_length lcgAPI orderCount 1 _,
   get_dataset_amounts lcgAPI lcgAPI_lawful 0⟩

/-- C10: `get_dataset` reseeds the global generator with the constant
42 on entry, so its whole result — the returned pair and the final
global state — is the same for any two global states before the call;
the final global state is a function of the seeded state and the fixed
sequence of draws alone. -/
theorem get_dataset_reseeds {S : Type} (api : RandomAPI S) (s0 s1 : S) :
    get_dataset api s0 = get_dataset api s1 ∧
    (get_dataset api s0).2.2 = (genOrdersFrom api 1 orderCount (api.seed 42)).2 := by
  refine ⟨rfl, ?_⟩
  simp only [get_dataset]

/-- A call to the `random` module, as recorded by the instrumented
interface instance below. -/
inductive DrawEvent where
  | seedCall : Int → DrawEvent
  | randintCall : Nat → Nat → DrawEvent
  | uniformCall : Nat → Nat → DrawEvent
  | choiceCall : Nat → DrawEvent
deriving DecidableEq, Repr

/-- Instrumented instance of the random interface whose state is the
list of calls made so far: each operation appends its event and returns
a fixed value. Because `get_dataset` is written uniformly in the
interface, its final state at this instance is exactly the sequence of
random-module calls the source makes, in order. -/
def traceAPI : RandomAPI (List DrawEvent) where
  seed := fun z => [DrawEvent.seedCall z]
  randint := fun lo hi s => (lo, s ++ [DrawEvent.randintCall lo hi])
  uniform := fun lo hi s => ((lo : ℚ), s ++ [DrawEvent.uniformCall lo hi])
  choiceIdx := fun n s => (0, s ++ [DrawEvent.choiceCall n])

/-- The three draws one iteration of the order loop makes, in source
order: `user_id`, then `amount`, then `status`. -/
def orderDraws : List DrawEvent :=
  [DrawEvent.randintCall 1 5000, DrawEvent.uniformCall 1 500,
   DrawEvent.choiceCall 3]

theorem genOrder_trace (i : Nat) (s : List DrawEvent) :
    (genOrder traceAPI i s).2 = s ++ orderDraws := by
  simp [genOrder, traceAPI, orderDraws, statuses]

theorem genOrdersFrom_trace :
    ∀ (n i : Nat) (s : List DrawEvent),
      (genOrdersFrom traceAPI i n s).2
        = s ++ (List.replicate n orderDraws).flatten := by
  intro n
  induction n with
  | zero => intro i s; simp [genOrdersFrom]
  | succ n ih =>
    intro i s
    simp only [genOrdersFrom, ih, genOrder_trace, List.replicate_succ,
      List.flatten_cons, List.append_assoc]

/-- C4: the generator seeds the single random stream once on entry and
then draws in the fixed order recorded by the instrumented interface:
no draw for any user, then for each of the 20000 orders a `randint`
for `user_id`, a `uniform` for `amount` and a `choice` for `status`,
in that order. The user fields are derived deterministically from the
loop index, and every timestamp is one of the two fixed constant
strings, independent of any clock. -/
theorem get_dataset_draw_order {S : Type} (api : RandomAPI S)
    (s0 : S) (t0 : List DrawEvent) :
    (get_dataset traceAPI t0).2.2
      = DrawEvent.seedCall 42 :: (List.replicate orderCount orderDraws).flatten ∧
    (get_dataset api s0).1.map User.name
      = (List.range userCount).map (fun k => "User " ++ toString (k + 1)) ∧
    (get_dataset api s0).1.map User.email
      = (List.range userCount).map
          (fun k => "user" ++ toString (k + 1) ++ "@example.com") ∧
    (get_dataset api s0).1.map User.created_at
      = List.replicate userCount "2023-01-01 10:00:00" ∧
    (get_dataset api s0).2.1.map Order.created_at
      = List.replicate orderCount "2023-01-02 11:00:00" := by
  refine ⟨?_, ?_, ?_, ?_, ?_⟩
  · have h := genOrdersFrom_trace orderCount 1 (traceAPI.seed 42)
    have h2 : (get_dataset traceAPI t0).2.2
        = (genOrdersFrom traceAPI 1 orderCount (traceAPI.seed 42)).2 := by
      simp only [get_dataset]
    rw [h2, h]
    rfl
  · rw [get_dataset_users_eq, List.map_map]
    exact List.map_congr_left (fun k _ => rfl)
  · rw [get_dataset_users_eq, List.map_map]
    exact List.map_congr_left (fun k _ => rfl)
  · rw [get_dataset_users_eq, List.map_map]
    rw [List.eq_replicate_iff]
    refine ⟨by simp, ?_⟩
    intro b hb
    simp only [List.mem_map] at hb
    obtain ⟨k, _, rfl⟩ := hb
    rfl
  · rw [get_dataset_orders_eq, List.eq_replicate_iff]
    constructor
    · rw [List.length_map]
      exact genOrdersFrom_length api orderCount 1 _
    · intro b hb
      simp only [List.mem_map] at hb
      obtain ⟨o, ho, rfl⟩ := hb
      exact genOrdersFrom_mem_created_at api orderCount 1 _ o ho

/-- One record of a `Benchmark.measure` call: the operation name, the
clock value `time.perf_counter()` read at the start, and the clock
value read at the end. -/
structure OpWindow where
  opName : String
  startT : ℚ
  endT : ℚ
deriving DecidableEq, Repr

/-- A sequence of `Benchmark.measure` calls. The monotone clock is an
explicitly threaded value: each entry of `ops` holds the operation
name, the clock advance between the previous `end` read and this call
reading `start` (the harness prints the previous line, builds the next
closure, and so on), and the duration of the measured call itself.
`measure` reads `start`, runs the operation — advancing the clock by
its duration — and reads `end`. -/
def measureSeq : ℚ → List (String × ℚ × ℚ) → List OpWindow
  | _, [] => []
  | t, (nm, g, d) :: rest =>
    OpWindow.mk nm (t + g) (t + g + d) :: measureSeq (t + g + d) rest

/-- The `results` mapping accumulated by `Benchmark.measure`: each
operation name bound to `(end - start) * 1000`, its duration in
milliseconds, in insertion order. -/
def resultsOf (ws : List OpWindow) : List (String × ℚ) :=
  ws.map (fun w => (w.opName, (w.endT - w.startT) * 1000))

/-- The six operation names, in the order in which every backend run
function measures them. -/
def benchOpNames : List String :=
  ["Create", "Read-1 Point", "Read-2 Range", "Read-3 UserOrders",
   "Update", "Delete"]

/-- The windows of one backend run: the six operations measured back
to back starting when the clock reads `t0`, with per-operation gaps
and durations. -/
def benchWindows (t0 : ℚ) (gaps durs : Fin 6 → ℚ) : List OpWindow :=
  measureSeq t0
    (List.ofFn (fun i : Fin 6 => (benchOpNames.getD (i : Nat) "", gaps i, durs i)))

theorem measureSeq_map_name :
    ∀ (ops : List (String × ℚ × ℚ)) (t : ℚ),
      (measureSeq t ops).map OpWindow.opName = ops.map (fun p => p.1) := by
  intro ops
  induction ops with
  | nil => intro t; rfl
  | cons p rest ih =>
    intro t
    obtain ⟨nm, g, d⟩ := p
    simp only [measureSeq, List.map_cons, ih]

theorem measureSeq_results :
    ∀ (ops : List (String × ℚ × ℚ)) (t : ℚ),
      resultsOf (measureSeq t ops) = ops.map (fun p => (p.1, p.2.2 * 1000)) := by
  intro ops
  induction ops with
  | nil => intro t; rfl
  | cons p rest ih =>
    intro t
    obtain ⟨nm, g, d⟩ := p
    simp only [measureSeq, resultsOf, List.map_cons] at ih ⊢
    rw [ih]
    refine congrArg₂ List.cons ?_ rfl
    refine congrArg (Prod.mk nm) ?_
    ring

theorem measureSeq_mem_bounds :
    ∀ (ops : List (String × ℚ × ℚ)) (t : ℚ),
      (∀ p ∈ ops, 0 ≤ p.2.1 ∧ 0 ≤ p.2.2) →
      ∀ w ∈ measureSeq t ops, t ≤ w.startT ∧ w.startT ≤ w.endT := by
  intro ops
  induction ops with
  | nil => intro t _ w hw; simp [measureSeq] at hw
  | cons p rest ih =>
    intro t hops w hw
    obtain ⟨nm, g, d⟩ := p
    have hp := hops (nm, g, d) (List.mem_cons_self _ _)
    simp only [measureSeq, List.mem_cons] at hw
    rcases hw with hw | hw
    · subst hw
      constructor
      · simp only
        linarith [hp.1]
      · simp only
        linarith [hp.2]
    · have hrest := ih (t + g + d)
        (fun q hq => hops q (List.mem_cons_of_mem _ hq)) w hw
      refine ⟨le_trans ?_ hrest.1, hrest.2⟩
      linarith [hp.1, hp.2]

theorem measureSeq_pairwise :
    ∀ (ops : List (String × ℚ × ℚ)) (t : ℚ),
      (∀ p ∈ ops, 0 ≤ p.2.1 ∧ 0 ≤ p.2.2) →
      List.Pairwise (fun a b => a.endT ≤ b.startT) (measureSeq t ops) := by
  intro ops
  induction ops with
  | nil => intro t _; simp [measureSeq]
  | cons p rest ih =>
    intro t hops
    obtain ⟨nm, g, d⟩ := p
    simp only [measureSeq, List.pairwise_cons]
    constructor
    · intro w hw
      have := measureSeq_mem_bounds rest (t + g + d)
        (fun q hq => hops q (List.mem_cons_of_mem _ hq)) w hw
      exact this.1
    · exact ih (t + g + d) (fun q hq => hops q (List.mem_cons_of_mem _ hq))

/-- Outcome of one backend run function, as seen by its caller:
either the `results` mapping it returned or the exception that escaped
it, the diagnostic lines it printed, whether a connection or file
handle was acquired during the run, whether that handle was closed
again before the function finished, and the timing windows of the
operations it measured to completion. -/
structure RunOutcome where
  outcome : Except String (List (String × ℚ))
  log : List String
  acquired : Bool
  closed : Bool
  windows : List OpWindow
deriving Repr

/-- Embedding of `run_sqlite`. The function removes any stale database
file, then calls `sqlite3.connect` and creates the tables with no
exception handler around them: `connectOk = false` models the
connection or schema step raising, and the exception propagates to the
caller with nothing acquired. `opsOk = false` models one of the
benchmarked operations raising: `measure` never reaches its `end` read,
the exception propagates, and the final `conn.close()` line — which
runs only on the fully successful path — is skipped. -/
def run_sqlite (connectOk opsOk : Bool) (t0 : ℚ)
    (gaps durs : Fin 6 → ℚ) : RunOutcome :=
  if !connectOk then
    { outcome := Except.error "sqlite3 connect failed"
      log := []
      acquired := false
      closed := false
      windows := [] }
  else if !opsOk then
    { outcome := Except.error "sqlite operation failed"
      log := []
      acquired := true
      closed := false
      windows := [] }
  else
    { outcome := Except.ok (resultsOf (benchWindows t0 gaps durs))
      log := []
      acquired := true
      closed := true
      windows := benchWindows t0 gaps durs }

/-- Embedding of `run_mysql`. The call to `mysql.connector.connect` is
wrapped in try/except: on failure the function prints a skip diagnostic
and returns the empty mapping. Nothing else is guarded: an operation
failure propagates, skipping the final `conn.close()`. -/
def run_mysql (connectOk opsOk : Bool) (t0 : ℚ)
    (gaps durs : Fin 6 → ℚ) : RunOutcome :=
  if !connectOk then
    { outcome := Except.ok []
      log := ["Skipping MySQL: connection error"]
      acquired := false
      closed := false
      windows := [] }
  else if !opsOk then
    { outcome := Except.error "mysql operation failed"
      log := []
      acquired := true
      closed := false
      windows := [] }
  else
    { outcome := Except.ok (resultsOf (benchWindows t0 gaps durs))
      log := []
      acquired := true
      closed := true
      windows := benchWindows t0 gaps durs }

/-- Embedding of `run_mongodb`. The `MongoClient` construction is
wrapped in try/except: on failure the function prints a skip diagnostic
and returns the empty mapping. The function never calls
`client.close()`, so the client handle stays open even on the fully
successful path. -/
def run_mongodb (connectOk opsOk : Bool) (t0 : ℚ)
    (gaps durs : Fin 6 → ℚ) : RunOutcome :=
  if !connectOk then
    { outcome := Except.ok []
      log := ["Skipping MongoDB: connection error"]
      acquired := false
      closed := false
      windows := [] }
  else if !opsOk then
    { outcome := Except.error "mongodb operation failed"
      log := []
      acquired := true
      closed := false
      windows := [] }
  else
    { outcome := Except.ok (resultsOf (benchWindows t0 gaps durs))
      log := []
      acquired := true
      closed := false
      windows := benchWindows t0 gaps durs }

/-- Embedding of `run_tinydb`. The file removal and `TinyDB` opening
have no exception handler, so a failure there propagates; the function
never calls `db.close()`, so the file-backed handle stays open even on
the fully successful path. -/
def run_tinydb (openOk opsOk : Bool) (t0 : ℚ)
    (gaps durs : Fin 6 → ℚ) : RunOutcome :=
  if !openOk then
    { outcome := Except.error "tinydb open failed"
      log := []
      acquired := false
      closed := false
      windows := [] }
  else if !opsOk then
    { outcome := Except.error "tinydb operation failed"
      log := []
      acquired := true
      closed := false
      windows := [] }
  else
    { outcome := Except.ok (resultsOf (benchWindows t0 gaps durs))
      log := []
      acquired := true
      closed := false
      windows := benchWindows t0 gaps durs }

/-- Health flags for one whole run of the entry point: per backend,
whether its connection or setup step succeeds and whether its
benchmarked operations all succeed. -/
structure MainConfig where
  mysqlConnectOk : Bool
  mysqlOpsOk : Bool
  sqliteConnectOk : Bool
  sqliteOpsOk : Bool
  mongoConnectOk : Bool
  mongoOpsOk : Bool
  tinydbOpenOk : Bool
  tinydbOpsOk : Bool
deriving DecidableEq, Repr

/-- Embedding of the `if __name__ == "__main__"` block: the four run
functions are called in the fixed order MySQL, SQLite, MongoDB, TinyDB
with no exception handler around them, so an exception escaping any run
aborts the process and the later backends never run. On completion the
result is each backend name paired with the mapping its run returned. -/
def main_run (cfg : MainConfig) (t0 : ℚ) (gaps durs : Fin 6 → ℚ) :
    Except String (List (String × List (String × ℚ))) := do
  let r1 ← (run_mysql cfg.mysqlConnectOk cfg.mysqlOpsOk t0 gaps durs).outcome
  let r2 ← (run_sqlite cfg.sqliteConnectOk cfg.sqliteOpsOk t0 gaps durs).outcome
  let r3 ← (run_mongodb cfg.mongoConnectOk cfg.mongoOpsOk t0 gaps durs).outcome
  let r4 ← (run_tinydb cfg.tinydbOpenOk cfg.tinydbOpsOk t0 gaps durs).outcome
  pure [("MySQL", r1), ("SQLite", r2), ("MongoDB", r3), ("TinyDB", r4)]

/-- C5: in a SQLite benchmark run the six measured operations carry the
fixed names in order; their timed windows are well formed and pairwise
disjoint — every window ends no later than any later window starts —
and the results mapping binds each operation name to exactly the
duration measured in the window of that name. -/
theorem run_sqlite_timing (t0 : ℚ) (gaps durs : Fin 6 → ℚ)
    (hg : ∀ i, 0 ≤ gaps i) (hd : ∀ i, 0 ≤ durs i) :
    (run_sqlite true true t0 gaps durs).windows.map OpWindow.opName
      = benchOpNames ∧
    List.Pairwise (fun a b => a.endT ≤ b.startT)
      (run_sqlite true true t0 gaps durs).windows ∧
    (∀ w ∈ (run_sqlite true true t0 gaps durs).windows, w.startT ≤ w.endT) ∧
    resultsOf (run_sqlite true true t0 gaps durs).windows
      = List.ofFn
          (fun i : Fin 6 => (benchOpNames.getD (i : Nat) "", durs i * 1000)) := by
  have hwin : (run_sqlite true true t0 gaps durs).windows
      = benchWindows t0 gaps durs := rfl
  have hops : ∀ p ∈ List.ofFn
      (fun i : Fin 6 => (benchOpNames.getD (i : Nat) "", gaps i, durs i)),
      0 ≤ p.2.1 ∧ 0 ≤ p.2.2 := by
    intro p hp
    rw [List.mem_ofFn] at hp
    obtain ⟨i, rfl⟩ := hp
    exact ⟨hg i, hd i⟩
  refine ⟨?_, ?_, ?_, ?_⟩
  · rw [hwin, benchWindows, measureSeq_map_name, List.map_ofFn]
    show List.ofFn (fun i : Fin 6 => benchOpNames.getD (i : Nat) "") = benchOpNames
    decide
  · rw [hwin, benchWindows]
    exact measureSeq_pairwise _ t0 hops
  · intro w hw
    rw [hwin, benchWindows] at hw
    exact (measureSeq_mem_bounds _ t0 hops w hw).2
  · rw [hwin, benchWindows, measureSeq_results, List.map_ofFn]
    rfl

/-- Witness for C5 with the clock starting at 0 and every gap and
duration equal to 1. -/
theorem run_sqlite_timing_witness :
    (run_sqlite true true 0 (fun _ => 1) (fun _ => 1)).windows.map OpWindow.opName
      = benchOpNames ∧
    List.Pairwise (fun a b => a.endT ≤ b.startT)
      (run_sqlite true true 0 (fun _ => 1) (fun _ => 1)).windows ∧
    (∀ w ∈ (run_sqlite true true 0 (fun _ => 1) (fun _ => 1)).windows,
      w.startT ≤ w.endT) ∧
    resultsOf (run_sqlite true true 0 (fun _ => 1) (fun _ => 1)).windows
      = List.ofFn
          (fun i : Fin 6 => (benchOpNames.getD (i : Nat) "", (1 : ℚ) * 1000)) :=
  run_sqlite_timing 0 (fun _ => 1) (fun _ => 1)
    (fun _ => by norm_num) (fun _ => by norm_num)

theorem measureSeq_length :
    ∀ (ops : List (String × ℚ × ℚ)) (t : ℚ),
      (measureSeq t ops).length = ops.length := by
  intro ops
  induction ops with
  | nil => intro t; rfl
  | cons p rest ih =>
    intro t
    obtain ⟨nm, g, d⟩ := p
    simp only [measureSeq, List.length_cons, ih]

theorem resultsOf_benchWindows_length (t0 : ℚ) (gaps durs : Fin 6 → ℚ) :
    (resultsOf (benchWindows t0 gaps durs)).length = 6 := by
  rw [resultsOf, List.length_map, benchWindows, measureSeq_length,
    List.length_ofFn]

/-- Counterexample to C6: when the SQLite setup step fails, `run_sqlite`
does not log a diagnostic and return an empty mapping — the exception
escapes the function, whose log stays empty. -/
theorem run_sqlite_setup_failure_raises :
    (run_sqlite false true 0 (fun _ => 1) (fun _ => 1)).outcome
      = Except.error "sqlite3 connect failed" ∧
    (run_sqlite false true 0 (fun _ => 1) (fun _ => 1)).log = [] :=
  ⟨rfl, rfl⟩

/-- C6 amended: the MySQL and MongoDB run functions guard their
connection step: on failure they log a skip diagnostic, measure no
operation and return the empty mapping without raising. The SQLite and
TinyDB run functions have no such guard, and a setup failure escapes
them as an exception. -/
theorem run_backend_setup_failure (opsOk : Bool) (t0 : ℚ)
    (gaps durs : Fin 6 → ℚ) :
    (run_mysql false opsOk t0 gaps durs).outcome = Except.ok [] ∧
    (run_mysql false opsOk t0 gaps durs).log
      = ["Skipping MySQL: connection error"] ∧
    (run_mysql false opsOk t0 gaps durs).windows = [] ∧
    (run_mongodb false opsOk t0 gaps durs).outcome = Except.ok [] ∧
    (run_mongodb false opsOk t0 gaps durs).log
      = ["Skipping MongoDB: connection error"] ∧
    (run_mongodb false opsOk t0 gaps durs).windows = [] ∧
    (run_sqlite false opsOk t0 gaps durs).outcome
      = Except.error "sqlite3 connect failed" ∧
    (run_tinydb false opsOk t0 gaps durs).outcome
      = Except.error "tinydb open failed" :=
  ⟨rfl, rfl, rfl, rfl, rfl, rfl, rfl, rfl⟩

/-- Counterexample to C7: with the SQLite setup failing and every other
backend healthy, the entry point aborts with the escaped exception, so
the healthy MongoDB and TinyDB backends that come later in the fixed
sequence never run and contribute no results. -/
theorem main_run_aborts_on_sqlite_failure :
    main_run ⟨true, true, false, true, true, true, true, true⟩ 0
      (fun _ => 1) (fun _ => 1)
      = Except.error "sqlite3 connect failed" := rfl

/-- C7 amended: fault isolation holds exactly for the guarded
connection steps. With the MySQL and MongoDB connections failing and
everything else healthy, the process completes: the failed backends
report empty mappings and the healthy SQLite and TinyDB backends still
run and return their six-entry mappings. But a SQLite setup failure, or
a failure in an individual benchmarked operation of any backend,
escapes its run function and aborts the process. -/
theorem main_run_fault_isolation (t0 : ℚ) (gaps durs : Fin 6 → ℚ) :
    main_run ⟨false, true, true, true, false, true, true, true⟩ t0 gaps durs
      = Except.ok [("MySQL", []),
          ("SQLite", resultsOf (benchWindows t0 gaps durs)),
          ("MongoDB", []),
          ("TinyDB", resultsOf (benchWindows t0 gaps durs))] ∧
    (resultsOf (benchWindows t0 gaps durs)).length = 6 ∧
    main_run ⟨true, true, false, true, true, true, true, true⟩ t0 gaps durs
      = Except.error "sqlite3 connect failed" ∧
    main_run ⟨true, false, true, true, true, true, true, true⟩ t0 gaps durs
      = Except.error "mysql operation failed" :=
  ⟨rfl, resultsOf_benchWindows_length t0 gaps durs, rfl, rfl⟩

/-- Counterexample to C8: the fully successful MongoDB run acquires the
client handle and returns its results without ever closing it. -/
theorem run_mongodb_not_closed :
    (run_mongodb true true 0 (fun _ => 1) (fun _ => 1)).acquired = true ∧
    (run_mongodb true true 0 (fun _ => 1) (fun _ => 1)).closed = false ∧
    (run_mongodb true true 0 (fun _ => 1) (fun _ => 1)).outcome
      = Except.ok (resultsOf (benchWindows 0 (fun _ => 1) (fun _ => 1))) :=
  ⟨rfl, rfl, rfl⟩

/-- C8 amended: SQLite and MySQL close their connection exactly on the
fully successful path, and when their connection step fails no handle
was acquired; but a failing benchmarked operation skips the close in
every backend, and MongoDB and TinyDB never close their handles at
all, even on success. -/
theorem run_backend_resource_release (t0 : ℚ) (gaps durs : Fin 6 → ℚ) :
    (run_sqlite true true t0 gaps durs).closed = true ∧
    (run_mysql true true t0 gaps durs).closed = true ∧
    (run_mongodb true true t0 gaps durs).acquired = true ∧
    (run_mongodb true true t0 gaps durs).closed = false ∧
    (run_tinydb true true t0 gaps durs).acquired = true ∧
    (run_tinydb true true t0 gaps durs).closed = false ∧
    (run_sqlite true false t0 gaps durs).acquired = true ∧
    (run_sqlite true false t0 gaps durs).closed = false ∧
    (run_mysql true false t0 gaps durs).acquired = true ∧
    (run_mysql true false t0 gaps durs).closed = false ∧
    (run_mysql false true t0 gaps durs).acquired = false ∧
    (run_mongodb false true t0 gaps durs).acquired = false :=
  ⟨rfl, rfl, rfl, rfl, rfl, rfl, rfl, rfl, rfl, rfl, rfl, rfl⟩

/-- A Python value stored in one of the generated record dicts, or an
object id a driver assigns. -/
inductive PyVal where
  | str : String → PyVal
  | int : Nat → PyVal
  | num : ℚ → PyVal
  | objId : Nat → PyVal
deriving DecidableEq, Repr

/-- A Python dict, modelled as an association list preserving insertion
order. -/
abbrev PyDict := List (String × PyVal)

/-- Dict assignment `d[k] = v`: replaces the value bound at `k` when
the key is present, otherwise appends the binding at the end. -/
def dictSet (d : PyDict) (k : String) (v : PyVal) : PyDict :=
  if d.any (fun p => p.1 == k) then
    d.map (fun p => if p.1 == k then (k, v) else p)
  else d ++ [(k, v)]

/-- Python `dict.copy()`: a fresh object with the same contents. The
copy matters below because the mongo driver mutates the object it is
handed, and mutating a fresh object leaves the original untouched. -/
def dictCopy (d : PyDict) : PyDict := d

/-- Reading `d[k]`, with a marker value for a missing key. -/
def dictGetD (d : PyDict) (k : String) : PyVal :=
  ((d.find? (fun p => p.1 == k)).map Prod.snd).getD (PyVal.str "KeyError")

/-- The dict `get_dataset` builds for a user. -/
def userDict (u : User) : PyDict :=
  [("user_id", PyVal.int u.user_id), ("name", PyVal.str u.name),
   ("email", PyVal.str u.email), ("created_at", PyVal.str u.created_at)]

/-- The dict `get_dataset` builds for an order. -/
def orderDict (o : Order) : PyDict :=
  [("order_id", PyVal.int o.order_id), ("user_id", PyVal.int o.user_id),
   ("amount", PyVal.num o.amount), ("status", PyVal.str o.status),
   ("created_at", PyVal.str o.created_at)]

/-- Effect of pymongo `insert_one` on the document object it is passed:
the driver assigns the generated `_id` into that very object, mutating
it; the stored document is that mutated object. -/
def insert_one (oid : Nat) (d : PyDict) : PyDict :=
  dictSet d "_id" (PyVal.objId oid)

/-- One insertion loop of `run_mongodb`'s create step, as in
`for u in users: db.users.insert_one(u.copy())`: each iteration passes
a fresh copy of the list element to the driver, so the `_id`
assignment lands on the copy. The loop returns the list objects as the
loop leaves them, together with the stored documents. -/
def mongoInsertLoop : Nat → List PyDict → List PyDict × List PyDict
  | _, [] => ([], [])
  | oid, u :: rest =>
    let arg := dictCopy u
    let stored := insert_one oid arg
    let r := mongoInsertLoop (oid + 1) rest
    (u :: r.1, stored :: r.2)

/-- Data effect of `run_mongodb` on the shared sequences: both
insertion loops run; the first component is the users and orders as
the loops leave them, the second the stored collections. -/
def run_mongodb_data (users orders : List PyDict) :
    (List PyDict × List PyDict) × List PyDict × List PyDict :=
  let ru := mongoInsertLoop 1 users
  let ro := mongoInsertLoop (users.length + 1) orders
  ((ru.1, ro.1), ru.2, ro.2)

/-- The parameter tuple `run_sqlite` and `run_mysql` bind for one user
row: `c.execute` receives the four field values read out of the dict;
the dict itself is only read. -/
def sqlUserRow (d : PyDict) : List PyVal :=
  [dictGetD d "user_id", dictGetD d "name", dictGetD d "email",
   dictGetD d "created_at"]

/-- The parameter tuple for one order row. -/
def sqlOrderRow (d : PyDict) : List PyVal :=
  [dictGetD d "order_id", dictGetD d "user_id", dictGetD d "amount",
   dictGetD d "status", dictGetD d "created_at"]

/-- Data effect of `run_sqlite` on the shared sequences: every insert
reads field values into a parameter tuple and never writes to the
dicts, so the sequences come back as they went in; the second
component is the rows the statements received. -/
def run_sqlite_data (users orders : List PyDict) :
    (List PyDict × List PyDict) × List (List PyVal) × List (List PyVal) :=
  ((users, orders), users.map sqlUserRow, orders.map sqlOrderRow)

/-- Data effect of `run_mysql`: same row-parameter shape as
`run_sqlite_data`. -/
def run_mysql_data (users orders : List PyDict) :
    (List PyDict × List PyDict) × List (List PyVal) × List (List PyVal) :=
  ((users, orders), users.map sqlUserRow, orders.map sqlOrderRow)

/-- Data effect of `run_tinydb`: TinyDB `insert` materialises an
internal copy of the document it is given (library behaviour) and does
not write to the argument, so the sequences come back as they went
in; the second component is the stored tables. -/
def run_tinydb_data (users orders : List PyDict) :
    (List PyDict × List PyDict) × List PyDict × List PyDict :=
  ((users, orders), users.map dictCopy, orders.map dictCopy)

/-- Data flow of the entry point: the two generated sequences are
handed to the four backend runs in the fixed order, each run receiving
the object lists as the previous run left them; the result collects
the (users, orders) pair as it stands after each backend run. -/
def main_data (users orders : List PyDict) :
    List (List PyDict × List PyDict) :=
  let p1 := (run_mysql_data users orders).1
  let p2 := (run_sqlite_data p1.1 p1.2).1
  let p3 := (run_mongodb_data p2.1 p2.2).1
  let p4 := (run_tinydb_data p3.1 p3.2).1
  [p1, p2, p3, p4]

theorem mongoInsertLoop_fst :
    ∀ (docs : List PyDict) (oid : Nat),
      (mongoInsertLoop oid docs).1 = docs := by
  intro docs
  induction docs with
  | nil => intro oid; rfl
  | cons u rest ih =>
    intro oid
    simp only [mongoInsertLoop, ih]

theorem main_data_eq (users orders : List PyDict) :
    main_data users orders = List.replicate 4 (users, orders) := by
  simp only [main_data, run_mysql_data, run_sqlite_data, run_mongodb_data,
    run_tinydb_data, mongoInsertLoop_fst]
  rfl

/-- C9: the generated sequences are handed unchanged through all four
backend runs: after each of the four runs the shared users and orders
lists are structurally equal to the generator's original output. In
particular the mongo loops insert copies, so the driver's `_id`
assignment never reaches the shared records. -/
theorem main_data_unchanged {S : Type} (api : RandomAPI S) (s0 : S) :
    main_data ((get_dataset api s0).1.map userDict)
        ((get_dataset api s0).2.1.map orderDict)
      = List.replicate 4
          ((get_dataset api s0).1.map userDict,
           (get_dataset api s0).2.1.map orderDict) :=
  main_data_eq _ _

end BenchmarkDb
